import Mathlib

/-!
Shallow embedding of the core analytics modules of the prizepicks-ipad-app
repository: `ev_calculator.py`, `arbitrage_scanner.py`,
`correlation_analyzer.py` and `bankroll_manager.py`.

Numbers are modelled as exact rationals (ℚ).  Python's built-in `round`
(round-half-to-even) is modelled by `pyRound` below.  Rational division is
total in Lean with `x / 0 = 0`; the source only divides by quantities that
are nonzero on the paths the theorems speak about.
-/

namespace PrizePicks

-- Batteries marks the arithmetic on `Rat` irreducible, which blocks `decide`
-- from evaluating concrete rational expressions; restore default reducibility
-- inside this development so concrete instances can be checked by `decide`.
attribute [local semireducible] Rat.add Rat.sub Rat.mul Rat.inv

/-- Round-half-to-even on a rational, returning the nearest integer
(ties go to the even integer), as Python's built-in `round` does. -/
def roundHalfEven (x : ℚ) : ℤ :=
  let f : ℤ := ⌊x⌋
  let r : ℚ := x - f
  if r < 1/2 then f
  else if 1/2 < r then f + 1
  else if f % 2 = 0 then f else f + 1

/-- Python's `round(x, n)` for nonnegative `n`, on exact rationals. -/
def pyRound (x : ℚ) (n : ℕ) : ℚ :=
  (roundHalfEven (x * 10 ^ n) : ℚ) / 10 ^ n

/-! ### ev_calculator.py -/

/-- The four columns produced by the inner function `calculate_pick_ev` of
`ev_calculator.calculate_ev` (src/ev_calculator.py lines 35-54). -/
structure PickEv where
  ev : ℚ
  direction : String
  is_positive : Bool
  edge_amount : ℚ
deriving DecidableEq

/-- `calculate_pick_ev(row)` from src/ev_calculator.py lines 35-54: PrizePicks
assumes probability 0.5; if the PrizePicks line is below the market line the
OVER is the valuable side, otherwise the UNDER.  The stored `ev` column is
`round(ev, 3)`, while `is_positive` compares the un-rounded `ev` with 0. -/
def calculate_pick_ev (line market_line implied_prob : ℚ) : PickEv :=
  if line < market_line then
    { ev := pyRound (implied_prob - 1/2) 3
      direction := "OVER"
      is_positive := decide (implied_prob - 1/2 > 0)
      edge_amount := |line - market_line| }
  else
    { ev := pyRound ((1 - implied_prob) - 1/2) 3
      direction := "UNDER"
      is_positive := decide ((1 - implied_prob) - 1/2 > 0)
      edge_amount := |line - market_line| }

/-- A row of the PrizePicks dataframe, restricted to the columns
`calculate_ev` reads. -/
structure PPRow where
  player : String
  line : ℚ
deriving DecidableEq

/-- A row of the market-odds dataframe, restricted to the columns
`calculate_ev` reads. -/
structure MarketRow where
  player : String
  market_line : ℚ
  implied_prob : ℚ
deriving DecidableEq

/-- A row of the dataframe returned by `calculate_ev`: the merged input
columns together with the four computed columns. -/
structure EvRow where
  player : String
  line : ℚ
  market_line : ℚ
  implied_prob : ℚ
  ev : ℚ
  direction : String
  is_positive : Bool
  edge_amount : ℚ
deriving DecidableEq

/-- Build one output row of `calculate_ev` from a joined pair of rows. -/
def evRowOf (p : PPRow) (m : MarketRow) : EvRow :=
  let r := calculate_pick_ev p.line m.market_line m.implied_prob
  { player := p.player, line := p.line, market_line := m.market_line
    implied_prob := m.implied_prob, ev := r.ev, direction := r.direction
    is_positive := r.is_positive, edge_amount := r.edge_amount }

/-- `pd.merge(prizepicks_df, market_df, on='player', how='inner')`
(src/ev_calculator.py lines 24-29): every pair of rows agreeing on the
`player` column, left order outer, right order inner. -/
def mergeProps (pp : List PPRow) (mk : List MarketRow) : List (PPRow × MarketRow) :=
  pp.flatMap fun p => (mk.filter fun m => m.player == p.player).map fun m => (p, m)

/-- Insertion step of the sort modelling `merged.sort_values('ev',
ascending=False)`. -/
def insertDescEv (r : EvRow) : List EvRow → List EvRow
  | [] => [r]
  | x :: xs => if x.ev ≤ r.ev then r :: x :: xs else x :: insertDescEv r xs

/-- Sort the result rows by `ev` descending (src/ev_calculator.py line 61). -/
def sortByEvDesc (l : List EvRow) : List EvRow :=
  l.foldr insertDescEv []

/-- `calculate_ev(prizepicks_df, market_df)` from src/ev_calculator.py lines
9-63: empty input or empty join gives an empty dataframe, otherwise every
joined row gets the EV columns and the result is sorted by `ev` descending. -/
def calculate_ev (pp : List PPRow) (mk : List MarketRow) : List EvRow :=
  if pp.isEmpty || mk.isEmpty then []
  else
    let merged := mergeProps pp mk
    if merged.isEmpty then []
    else sortByEvDesc (merged.map fun pm => evRowOf pm.1 pm.2)

/-- A row of a selected-picks dataframe, restricted to the columns read by
`calculate_parlay_probability` and `calculate_correlation_penalty`. -/
structure ParlayPick where
  player : String
  direction : String
  implied_prob : ℚ
deriving DecidableEq

/-- Per-leg hit probability read off inside `calculate_parlay_probability`
(src/ev_calculator.py lines 80-84). -/
def pickProb (p : ParlayPick) : ℚ :=
  if p.direction = "OVER" then p.implied_prob else 1 - p.implied_prob

/-- `calculate_parlay_probability(picks_df)` from src/ev_calculator.py lines
65-89: 0.0 on an empty dataframe, otherwise `round(prod(probs), 4)`. -/
def calculate_parlay_probability (picks : List ParlayPick) : ℚ :=
  if picks.isEmpty then 0
  else pyRound ((picks.map pickProb).prod) 4

/-! ### arbitrage_scanner.py -/

/-- A prop row as consumed by `ArbitrageScanner.calculate_arbitrage` with the
default `odds_key='implied_prob'`. -/
structure ArbProp where
  player : String
  stat_type : String
  implied_prob : ℚ
deriving DecidableEq

/-- `self.min_profit_pct = 0.01` (src/arbitrage_scanner.py line 12). -/
def min_profit_pct : ℚ := 1/100

/-- `itertools.combinations(l, 2)`: all pairs of elements in order. -/
def pairs {α : Type} : List α → List (α × α)
  | [] => []
  | x :: xs => (xs.map fun y => (x, y)) ++ pairs xs

/-- `itertools.combinations(l, 3)`: all triples of elements in order. -/
def triples {α : Type} : List α → List (α × α × α)
  | [] => []
  | x :: xs => ((pairs xs).map fun yz => (x, yz.1, yz.2)) ++ triples xs

/-- The stake split of a two-way arbitrage (src/arbitrage_scanner.py lines
34-35): `stake_i = (1 / total_prob) * implied_prob_i`. -/
def twoWayStakes (p1 p2 : ℚ) : ℚ × ℚ :=
  ((1 / (p1 + p2)) * p1, (1 / (p1 + p2)) * p2)

/-- The dictionary appended to `opportunities` by `calculate_arbitrage`.
Three-way opportunities carry no per-player stake split in the source, which
is modelled by an empty `stakes` list. -/
structure Opportunity where
  otype : String
  players : String
  stats : String
  profit_pct : ℚ
  stakes : List (String × ℚ)
  total_stake : ℚ
  guaranteed_profit : ℚ
deriving DecidableEq

/-- Body of the two-way loop of `calculate_arbitrage`
(src/arbitrage_scanner.py lines 21-48). -/
def twoWayOpp (p1 p2 : ArbProp) : Option Opportunity :=
  if p1.player = p2.player then none
  else
    let total := p1.implied_prob + p2.implied_prob
    if total < 1 then
      let profit := (1 / total - 1) * 100
      if min_profit_pct ≤ profit then
        let s := twoWayStakes p1.implied_prob p2.implied_prob
        some
          { otype := "Two-way arb"
            players := p1.player ++ " vs " ++ p2.player
            stats := p1.stat_type ++ " & " ++ p2.stat_type
            profit_pct := pyRound profit 2
            stakes := [(p1.player, pyRound (s.1 * 100) 2),
                       (p2.player, pyRound (s.2 * 100) 2)]
            total_stake := pyRound ((s.1 + s.2) * 100) 2
            guaranteed_profit := pyRound ((1 / total - 1) * 100) 2 }
      else none
    else none

/-- Body of the three-way loop of `calculate_arbitrage`
(src/arbitrage_scanner.py lines 51-69). -/
def threeWayOpp (p1 p2 p3 : ArbProp) : Option Opportunity :=
  if p1.player = p2.player ∨ p1.player = p3.player ∨ p2.player = p3.player then none
  else
    let total := p1.implied_prob + p2.implied_prob + p3.implied_prob
    if total < 1 then
      let profit := (1 / total - 1) * 100
      if min_profit_pct ≤ profit then
        some
          { otype := "Three-way arb"
            players := p1.player ++ ", " ++ p2.player ++ ", " ++ p3.player
            stats := p1.stat_type ++ ", " ++ p2.stat_type ++ ", " ++ p3.stat_type
            profit_pct := pyRound profit 2
            stakes := []
            total_stake := 100
            guaranteed_profit := pyRound profit 2 }
      else none
    else none

/-- `ArbitrageScanner.calculate_arbitrage(props)` from
src/arbitrage_scanner.py lines 14-71: the two-way pass over all pairs
followed by the three-way pass over all triples. -/
def calculate_arbitrage (props : List ArbProp) : List Opportunity :=
  ((pairs props).filterMap fun q => twoWayOpp q.1 q.2) ++
    ((triples props).filterMap fun q => threeWayOpp q.1 q.2.1 q.2.2)

/-! ### correlation_analyzer.py -/

/-- The hardcoded player → team dictionary of `get_team_from_player`
(src/correlation_analyzer.py lines 15-91), in source order. -/
def player_teams : List (String × String) :=
  [("LeBron James", "LAL"), ("Anthony Davis", "LAL"), ("Austin Reaves", "LAL"),
   ("D\x27Angelo Russell", "LAL"),
   ("Stephen Curry", "GSW"), ("Klay Thompson", "GSW"), ("Draymond Green", "GSW"),
   ("Andrew Wiggins", "GSW"),
   ("Giannis Antetokounmpo", "MIL"), ("Damian Lillard", "MIL"),
   ("Khris Middleton", "MIL"), ("Brook Lopez", "MIL"),
   ("Jayson Tatum", "BOS"), ("Jaylen Brown", "BOS"), ("Kristaps Porzingis", "BOS"),
   ("Jrue Holiday", "BOS"),
   ("Nikola Jokic", "DEN"), ("Jamal Murray", "DEN"), ("Michael Porter Jr.", "DEN"),
   ("Aaron Gordon", "DEN"),
   ("Joel Embiid", "PHI"), ("Tyrese Maxey", "PHI"), ("Tobias Harris", "PHI"),
   ("Luka Doncic", "DAL"), ("Kyrie Irving", "DAL"), ("Tim Hardaway Jr.", "DAL"),
   ("Shai Gilgeous-Alexander", "OKC"), ("Jalen Williams", "OKC"),
   ("Chet Holmgren", "OKC"),
   ("Trae Young", "ATL"), ("Dejounte Murray", "ATL"), ("Jalen Johnson", "ATL"),
   ("Kevin Durant", "PHX"), ("Devin Booker", "PHX"), ("Bradley Beal", "PHX"),
   ("Kawhi Leonard", "LAC"), ("Paul George", "LAC"), ("James Harden", "LAC"),
   ("Russell Westbrook", "LAC"),
   ("Anthony Edwards", "MIN"), ("Karl-Anthony Towns", "MIN"), ("Rudy Gobert", "MIN"),
   ("Jimmy Butler", "MIA"), ("Bam Adebayo", "MIA"), ("Tyler Herro", "MIA"),
   ("Jalen Brunson", "NYK"), ("Julius Randle", "NYK"), ("OG Anunoby", "NYK")]

/-- Contiguous-sublist test on character lists, modelling Python's
`needle in haystack` for strings. -/
def isSubstrChars (n : List Char) : List Char → Bool
  | [] => n.isEmpty
  | c :: cs => n.isPrefixOf (c :: cs) || isSubstrChars n cs

/-- Python's `n in h` on strings: `n` occurs contiguously in `h`. -/
def isSubstring (n h : String) : Bool :=
  isSubstrChars n.toList h.toList

/-- `get_team_from_player(player_name)` from src/correlation_analyzer.py lines
9-102: exact dictionary hit first, then the first entry whose key contains or
is contained in the queried name, else the sentinel `"OTHER"`. -/
def get_team_from_player (p : String) : String :=
  match player_teams.lookup p with
  | some t => t
  | none =>
    match player_teams.find? fun nt => isSubstring nt.1 p || isSubstring p nt.1 with
    | some nt => nt.2
    | none => "OTHER"

/-- The off-diagonal coefficient logic of `calculate_correlation_matrix`
(src/correlation_analyzer.py lines 133-142), as a function of the two
team tags. -/
def pairCorrelation (t1 t2 : String) : ℚ :=
  if t1 = t2 ∧ t1 ≠ "OTHER" then -(1/4)
  else if t1 ≠ "OTHER" ∧ t2 ≠ "OTHER" then 1/10
  else 0

/-- `calculate_correlation_matrix(players_list)` from
src/correlation_analyzer.py lines 104-148, as a function of the two positions:
ones on the diagonal, `pairCorrelation` of the looked-up teams elsewhere. -/
def calculate_correlation_matrix (players : List String) (i j : ℕ) : ℚ :=
  if i = j then 1
  else
    pairCorrelation (get_team_from_player (players.getD i ""))
      (get_team_from_player (players.getD j ""))

/-- The index pairs `(i, j)` with `i < j < n` in the iteration order of the
nested loops of `calculate_correlation_penalty` (lines 169-172). -/
def indexPairs (n : ℕ) : List (ℕ × ℕ) :=
  (List.range n).flatMap fun i => ((List.range n).filter fun j => i < j).map fun j => (i, j)

/-- The list of upper-triangle correlation coefficients collected by
`calculate_correlation_penalty` (src/correlation_analyzer.py lines 167-172). -/
def correlationsOf (players : List String) : List ℚ :=
  (indexPairs players.length).map fun ij =>
    calculate_correlation_matrix players ij.1 ij.2

/-- `calculate_correlation_penalty(picks_df, weight=0.3)` from
src/correlation_analyzer.py lines 150-186: 1.0 for fewer than two picks, else
the average upper-triangle correlation is scaled by `weight` and the factor
`1 + avg * weight` is clamped to `[0.7, 1.3]`. -/
def calculate_correlation_penalty (picks : List ParlayPick) (weight : ℚ) : ℚ :=
  if picks.length < 2 then 1
  else
    let correlations := correlationsOf (picks.map (·.player))
    if correlations.isEmpty then 1
    else
      let avg := correlations.sum / correlations.length
      max (7/10) (min (13/10) (1 + avg * weight))

/-! ### bankroll_manager.py -/

/-- `BankrollManager.kelly_criterion(odds, edge, full_kelly=0.25)` from
src/bankroll_manager.py lines 11-30. -/
def kelly_criterion (odds edge full_kelly : ℚ) : ℚ :=
  if odds ≤ 1 ∨ edge ≤ 0 then 0
  else max 0 ((((1/2 + edge) * odds - 1) / (odds - 1)) * full_kelly)

/-- The dictionary returned by `BankrollManager.calculate_stake`
(src/bankroll_manager.py lines 55-59). -/
structure StakeResult where
  amount : ℚ
  percentage : ℚ
  methods : List (String × ℚ)
deriving DecidableEq

/-- Python's `min` over the percentages of a nonempty method list. -/
def minSnd : List (String × ℚ) → ℚ
  | [] => 0
  | [m] => m.2
  | m :: ms => min m.2 (minSnd ms)

/-- `BankrollManager.calculate_stake(odds, edge, unit_size=0.01)` from
src/bankroll_manager.py lines 32-59, with the bankroll passed explicitly:
collect the Kelly stake (when positive), the fixed 1% stake and the
confidence stake, and recommend the minimum of the collected percentages. -/
def calculate_stake (bankroll odds edge unit_size : ℚ) : StakeResult :=
  let kelly_pct := kelly_criterion odds edge (1/4)
  let methods :=
    (if kelly_pct > 0 then [("Kelly", kelly_pct)] else []) ++
      [("Fixed 1%", unit_size),
       ("Confidence", min (1/20) (max (1/200) (edge * 2)))]
  let recommended_pct := minSnd methods
  { amount := pyRound (bankroll * recommended_pct) 2
    percentage := pyRound (recommended_pct * 100) 2
    methods := methods.map fun m => (m.1, pyRound (m.2 * 100) 2) }

/-! ### Helper lemmas -/

theorem le_roundHalfEven (x : ℚ) : ⌊x⌋ ≤ roundHalfEven x := by
  simp only [roundHalfEven]
  split_ifs <;> omega

theorem roundHalfEven_le {x : ℚ} {B : ℤ} (h : x ≤ B) : roundHalfEven x ≤ B := by
  have hfl : ⌊x⌋ ≤ B := by
    have h2 := Int.floor_le_floor h
    simpa using h2
  have hfx : (⌊x⌋ : ℚ) ≤ x := Int.floor_le x
  simp only [roundHalfEven]
  split_ifs with h1 h2 h3
  · exact hfl
  · have hx : (⌊x⌋ : ℚ) + 1/2 < x := by linarith
    have hq : (⌊x⌋ : ℚ) < (B : ℚ) := by linarith [h]
    have : ⌊x⌋ < B := by exact_mod_cast hq
    omega
  · exact hfl
  · have hx : (⌊x⌋ : ℚ) + 1/2 ≤ x := by
      have := not_lt.mp h1
      linarith
    have hq : (⌊x⌋ : ℚ) < (B : ℚ) := by linarith [h]
    have : ⌊x⌋ < B := by exact_mod_cast hq
    omega

theorem le_roundHalfEven_of_le {x : ℚ} {B : ℤ} (h : (B : ℚ) ≤ x) :
    B ≤ roundHalfEven x :=
  (Int.le_floor.mpr h).trans (le_roundHalfEven x)

theorem pyRound_nonneg {x : ℚ} (n : ℕ) (h : 0 ≤ x) : 0 ≤ pyRound x n := by
  have h0 : ((0 : ℤ) : ℚ) ≤ x * 10 ^ n := by positivity
  have hr : (0 : ℤ) ≤ roundHalfEven (x * 10 ^ n) := le_roundHalfEven_of_le h0
  unfold pyRound
  apply div_nonneg _ (by positivity)
  exact_mod_cast hr

theorem pyRound_le_one {x : ℚ} (n : ℕ) (h : x ≤ 1) : pyRound x n ≤ 1 := by
  have hmul : x * 10 ^ n ≤ (((10 : ℤ) ^ n : ℤ) : ℚ) := by
    push_cast
    calc x * 10 ^ n ≤ 1 * 10 ^ n := by
          exact mul_le_mul_of_nonneg_right h (by positivity)
      _ = 10 ^ n := one_mul _
  have hr : roundHalfEven (x * 10 ^ n) ≤ 10 ^ n := roundHalfEven_le hmul
  unfold pyRound
  rw [div_le_one (by positivity)]
  exact_mod_cast hr

theorem le_pyRound {x : ℚ} {k : ℤ} (n : ℕ) (h : (k : ℚ) ≤ x * 10 ^ n) :
    (k : ℚ) / 10 ^ n ≤ pyRound x n := by
  have hr : k ≤ roundHalfEven (x * 10 ^ n) := le_roundHalfEven_of_le h
  unfold pyRound
  have h10 : (0 : ℚ) < 10 ^ n := by positivity
  exact div_le_div_of_nonneg_right (by exact_mod_cast hr) h10.le

theorem list_prod_nonneg_le_one {l : List ℚ} (h : ∀ a ∈ l, 0 ≤ a ∧ a ≤ 1) :
    0 ≤ l.prod ∧ l.prod ≤ 1 := by
  induction l with
  | nil => simp
  | cons a t ih =>
    have ha := h a (by simp)
    have ht := ih fun b hb => h b (by simp [hb])
    simp only [List.prod_cons]
    exact ⟨mul_nonneg ha.1 ht.1, mul_le_one₀ ha.2 ht.1 ht.2⟩

theorem pairCorrelation_comm (t1 t2 : String) :
    pairCorrelation t1 t2 = pairCorrelation t2 t1 := by
  unfold pairCorrelation
  by_cases h : t1 = t2
  · subst h; rfl
  · have h' : ¬ t2 = t1 := fun e => h e.symm
    rw [if_neg fun hc : t1 = t2 ∧ t1 ≠ "OTHER" => h hc.1]
    rw [if_neg fun hc : t2 = t1 ∧ t2 ≠ "OTHER" => h' hc.1]
    exact if_congr and_comm rfl rfl

theorem calculate_correlation_matrix_symm (ps : List String) (i j : ℕ) :
    calculate_correlation_matrix ps i j = calculate_correlation_matrix ps j i := by
  unfold calculate_correlation_matrix
  by_cases h : i = j
  · subst h; rfl
  · rw [if_neg h, if_neg (Ne.symm h)]
    exact pairCorrelation_comm _ _

theorem mem_indexPairs_zero_one {n : ℕ} (h : 2 ≤ n) : (0, 1) ∈ indexPairs n := by
  unfold indexPairs
  apply List.mem_flatMap.mpr
  refine ⟨0, List.mem_range.mpr (by omega), ?_⟩
  apply List.mem_map.mpr
  refine ⟨1, ?_, rfl⟩
  exact List.mem_filter.mpr ⟨List.mem_range.mpr (by omega), by decide⟩

theorem correlationsOf_ne_nil {players : List String} (h : 2 ≤ players.length) :
    correlationsOf players ≠ [] := by
  unfold correlationsOf
  intro hc
  have hmem := mem_indexPairs_zero_one h
  rw [List.map_eq_nil_iff.mp hc] at hmem
  exact List.not_mem_nil _ hmem

theorem player_teams_values_ne_other : ∀ nt ∈ player_teams, nt.2 ≠ "OTHER" := by
  decide

/-! ### Claim theorems -/

/-- C1, counterexample: with fixed line 20, market line 22 and implied
probability 0.5004 the direction is OVER, but the stored edge is the rounded
value 0.0 — not `implied_prob - 0.5 = 0.0004` — and `is_positive` is true
even though the stored edge is not positive, refuting exactness of the edge
and the stated equivalence at this input. -/
theorem pick_ev_rounding_counterexample :
    (calculate_pick_ev 20 22 (1251/2500)).direction = "OVER" ∧
    (calculate_pick_ev 20 22 (1251/2500)).ev = 0 ∧
    (calculate_pick_ev 20 22 (1251/2500)).ev ≠ (1251/2500 : ℚ) - 1/2 ∧
    (calculate_pick_ev 20 22 (1251/2500)).is_positive = true ∧
    ¬ (calculate_pick_ev 20 22 (1251/2500)).ev > 0 := by
  decide

/-- C1, amended: for every joined row, direction is OVER exactly when the
fixed line is strictly below the market line; the stored edge column equals
`implied_prob - 0.5` (OVER) resp. `(1 - implied_prob) - 0.5` (UNDER) rounded
to 3 decimal places; and `is_positive` is true if and only if the un-rounded
edge is strictly positive. -/
theorem pick_ev_direction_edge_characterization (line market_line implied_prob : ℚ) :
    (line < market_line →
      (calculate_pick_ev line market_line implied_prob).direction = "OVER" ∧
      (calculate_pick_ev line market_line implied_prob).ev =
        pyRound (implied_prob - 1/2) 3 ∧
      ((calculate_pick_ev line market_line implied_prob).is_positive = true ↔
        implied_prob - 1/2 > 0)) ∧
    (¬ line < market_line →
      (calculate_pick_ev line market_line implied_prob).direction = "UNDER" ∧
      (calculate_pick_ev line market_line implied_prob).ev =
        pyRound ((1 - implied_prob) - 1/2) 3 ∧
      ((calculate_pick_ev line market_line implied_prob).is_positive = true ↔
        (1 - implied_prob) - 1/2 > 0)) := by
  constructor
  · intro h
    simp [calculate_pick_ev, if_pos h]
  · intro h
    simp [calculate_pick_ev, if_neg h]

/-- C1, witness: the spec's own round-trip example — fixed line 20, market
line 22, implied probability 0.6 gives direction OVER with stored edge
`round(0.10, 3)`. -/
theorem pick_ev_direction_edge_characterization_witness :
    (calculate_pick_ev 20 22 (6/10)).direction = "OVER" ∧
    (calculate_pick_ev 20 22 (6/10)).ev = pyRound ((6/10 : ℚ) - 1/2) 3 := by
  have h := pick_ev_direction_edge_characterization 20 22 (6/10)
  exact ⟨(h.1 (by decide)).1, (h.1 (by decide)).2.1⟩

/-- C2: evaluating `calculate_arbitrage` at two quotes with implied
probabilities 0.50 and 0.495 (sum 0.995, profit about 0.5%) returns one
two-way opportunity with `profit_pct` 0.5 even though 0.5 < 1: the code
compares the percentage value against the literal `0.01`, so the effective
threshold is 0.01%, not the documented 1%. -/
theorem arbitrage_subpercent_opportunity :
    (calculate_arbitrage
        [⟨"A", "Points", 1/2⟩, ⟨"B", "Assists", 99/200⟩]).map
        (fun o => (o.otype, o.profit_pct)) = [("Two-way arb", 1/2)] ∧
    (1/2 : ℚ) < 1 ∧ min_profit_pct = 1/100 := by
  decide

/-- C3, counterexample: three OVER legs with implied probability 0.55 give
raw product 0.166375, but `calculate_parlay_probability` returns the
4-decimal rounding 0.1664, so the result is not the product itself. -/
theorem parlay_probability_rounding_counterexample :
    calculate_parlay_probability
        [⟨"a", "OVER", 11/20⟩, ⟨"b", "OVER", 11/20⟩, ⟨"c", "OVER", 11/20⟩] ≠
      (([⟨"a", "OVER", 11/20⟩, ⟨"b", "OVER", 11/20⟩, ⟨"c", "OVER", 11/20⟩] :
          List ParlayPick).map pickProb).prod := by
  decide

/-- C3, amended: `calculate_parlay_probability` returns 0 on an empty leg
list and otherwise the 4-decimal rounding of the product over legs of
(`implied_prob` if direction is OVER, else `1 - implied_prob`); whenever all
implied probabilities lie in [0,1] the result lies in [0,1]. -/
theorem parlay_probability_characterization (legs : List ParlayPick)
    (h : ∀ l ∈ legs, 0 ≤ l.implied_prob ∧ l.implied_prob ≤ 1) :
    (legs = [] → calculate_parlay_probability legs = 0) ∧
    (legs ≠ [] →
      calculate_parlay_probability legs =
        pyRound ((legs.map fun l =>
          if l.direction = "OVER" then l.implied_prob else 1 - l.implied_prob).prod) 4) ∧
    0 ≤ calculate_parlay_probability legs ∧
    calculate_parlay_probability legs ≤ 1 := by
  have hprob : ∀ a ∈ legs.map pickProb, 0 ≤ a ∧ a ≤ 1 := by
    intro a ha
    rcases List.mem_map.mp ha with ⟨l, hl, rfl⟩
    have hla := h l hl
    unfold pickProb
    split_ifs <;> constructor <;> linarith [hla.1, hla.2]
  have hprod := list_prod_nonneg_le_one hprob
  refine ⟨fun he => by simp [calculate_parlay_probability, he], ?_, ?_, ?_⟩
  · intro hne
    unfold calculate_parlay_probability
    rw [if_neg (by simpa [List.isEmpty_iff] using hne)]
    rfl
  · unfold calculate_parlay_probability
    split_ifs with he
    · norm_num
    · exact pyRound_nonneg 4 hprod.1
  · unfold calculate_parlay_probability
    split_ifs with he
    · norm_num
    · exact pyRound_le_one 4 hprod.2

/-- C3, witness: a single OVER leg with implied probability 0.6 — nonempty
case plus the [0,1] bounds at a concrete input. -/
theorem parlay_probability_characterization_witness :
    calculate_parlay_probability [⟨"a", "OVER", 3/5⟩] =
      pyRound ((([⟨"a", "OVER", 3/5⟩] : List ParlayPick).map fun l =>
        if l.direction = "OVER" then l.implied_prob else 1 - l.implied_prob).prod) 4 ∧
    calculate_parlay_probability [⟨"a", "OVER", 3/5⟩] ≤ 1 := by
  have h := parlay_probability_characterization [⟨"a", "OVER", 3/5⟩] (by decide)
  exact ⟨h.2.1 (by decide), h.2.2.2⟩

/-- C4: the correlation penalty with the default weight 0.3 always lies in
[0.7, 1.3]; it is exactly 1.0 for fewer than two picks, and for at least two
picks it equals `clamp(1 + avg * 0.3, 0.7, 1.3)` where `avg` is the average
of the upper-triangle pairwise correlation coefficients. -/
theorem correlation_penalty_clamped (picks : List ParlayPick) :
    7/10 ≤ calculate_correlation_penalty picks (3/10) ∧
    calculate_correlation_penalty picks (3/10) ≤ 13/10 ∧
    (picks.length < 2 → calculate_correlation_penalty picks (3/10) = 1) ∧
    (2 ≤ picks.length →
      calculate_correlation_penalty picks (3/10) =
        max (7/10) (min (13/10)
          (1 + ((correlationsOf (picks.map (·.player))).sum /
                ((correlationsOf (picks.map (·.player))).length : ℚ)) * (3/10)))) := by
  by_cases hlen : picks.length < 2
  · have hP : calculate_correlation_penalty picks (3/10) = 1 := by
      unfold calculate_correlation_penalty
      rw [if_pos hlen]
    exact ⟨by rw [hP]; norm_num, by rw [hP]; norm_num, fun _ => hP,
      fun h2 => absurd h2 (by omega)⟩
  · have hlenp : 2 ≤ (picks.map (·.player)).length := by
      simpa using (by omega : 2 ≤ picks.length)
    have hne := correlationsOf_ne_nil hlenp
    have hP : calculate_correlation_penalty picks (3/10) =
        max (7/10) (min (13/10)
          (1 + ((correlationsOf (picks.map (·.player))).sum /
                ((correlationsOf (picks.map (·.player))).length : ℚ)) * (3/10))) := by
      simp only [calculate_correlation_penalty]
      rw [if_neg hlen, if_neg (by simpa [List.isEmpty_iff] using hne)]
    exact ⟨by rw [hP]; exact le_max_left _ _,
      by rw [hP]; exact max_le (by norm_num) (min_le_left _ _),
      fun hl => absurd hl hlen, fun _ => hP⟩

/-- C4, witness: two same-team picks (both LAL) give the in-range penalty
`1 + (-0.25) * 0.3 = 0.925`. -/
theorem correlation_penalty_clamped_witness :
    7/10 ≤ calculate_correlation_penalty
        [⟨"LeBron James", "OVER", 1/2⟩, ⟨"Anthony Davis", "OVER", 1/2⟩] (3/10) ∧
    calculate_correlation_penalty
        [⟨"LeBron James", "OVER", 1/2⟩, ⟨"Anthony Davis", "OVER", 1/2⟩] (3/10) ≤ 13/10 := by
  have h := correlation_penalty_clamped
    [⟨"LeBron James", "OVER", 1/2⟩, ⟨"Anthony Davis", "OVER", 1/2⟩]
  exact ⟨h.1, h.2.1⟩

/-- C5: for two distinct positions holding distinct players, the correlation
matrix entry is -0.25 when both players resolve to the same known team,
+0.10 when both resolve to known but different teams, and 0.0 as soon as
either resolves to the sentinel "OTHER"; the matrix is symmetric. -/
theorem correlation_matrix_entries (ps : List String) (i j : ℕ)
    (hi : i < ps.length) (hj : j < ps.length) (hij : i ≠ j)
    (hp : ps.getD i "" ≠ ps.getD j "") :
    (calculate_correlation_matrix ps i j = calculate_correlation_matrix ps j i) ∧
    (get_team_from_player (ps.getD i "") = get_team_from_player (ps.getD j "") →
      get_team_from_player (ps.getD i "") ≠ "OTHER" →
      calculate_correlation_matrix ps i j = -(1/4)) ∧
    (get_team_from_player (ps.getD i "") ≠ get_team_from_player (ps.getD j "") →
      get_team_from_player (ps.getD i "") ≠ "OTHER" →
      get_team_from_player (ps.getD j "") ≠ "OTHER" →
      calculate_correlation_matrix ps i j = 1/10) ∧
    ((get_team_from_player (ps.getD i "") = "OTHER" ∨
        get_team_from_player (ps.getD j "") = "OTHER") →
      calculate_correlation_matrix ps i j = 0) := by
  have hm : calculate_correlation_matrix ps i j =
      pairCorrelation (get_team_from_player (ps.getD i ""))
        (get_team_from_player (ps.getD j "")) := by
    unfold calculate_correlation_matrix
    rw [if_neg hij]
  refine ⟨calculate_correlation_matrix_symm ps i j, ?_, ?_, ?_⟩
  · intro heq hne
    rw [hm]
    unfold pairCorrelation
    rw [if_pos ⟨heq, hne⟩]
  · intro hneq hne1 hne2
    rw [hm]
    unfold pairCorrelation
    rw [if_neg fun hc => hneq hc.1, if_pos ⟨hne1, hne2⟩]
  · intro hcase
    rw [hm]
    unfold pairCorrelation
    rcases hcase with h1 | h1
    · rw [if_neg fun hc => hc.2 h1, if_neg fun hc => hc.1 h1]
    · rw [if_neg fun hc => hc.2 (hc.1.trans h1), if_neg fun hc => hc.2 h1]

/-- C5, witness: LeBron James (LAL) and Stephen Curry (GSW) sit at distinct
positions with known different teams, so their matrix entry is +0.10. -/
theorem correlation_matrix_entries_witness :
    calculate_correlation_matrix ["LeBron James", "Stephen Curry"] 0 1 = 1/10 := by
  have h := correlation_matrix_entries ["LeBron James", "Stephen Curry"] 0 1
    (by decide) (by decide) (by decide) (by decide)
  exact h.2.2.1 (by decide) (by decide) (by decide)

/-- C6: with bankroll 1000, decimal odds 2.0, edge 0.05 and the default
quarter Kelly, the three method percentages are Kelly 2.5%, Fixed 1% and
Confidence 5%, and the recommendation is their minimum: 1%, i.e. $10. -/
theorem stake_example_bankroll_1000 :
    calculate_stake 1000 2 (1/20) (1/100) =
      { amount := 10, percentage := 1,
        methods := [("Kelly", 5/2), ("Fixed 1%", 1), ("Confidence", 5)] } := by
  decide

/-- C7: on degenerate inputs (odds at most 1 or non-positive edge) the Kelly
stake is 0 and is dropped from the method list, the recommendation equals the
smaller of the fixed 1% bound and the confidence bound, and the reported
percentage is strictly positive (hence never negative). -/
theorem stake_degenerate_inputs (bankroll odds edge : ℚ)
    (h : odds ≤ 1 ∨ edge ≤ 0) :
    kelly_criterion odds edge (1/4) = 0 ∧
    (calculate_stake bankroll odds edge (1/100)).percentage =
      pyRound ((min (1/100) (min (1/20) (max (1/200) (edge * 2)))) * 100) 2 ∧
    0 < (calculate_stake bankroll odds edge (1/100)).percentage := by
  have hk : kelly_criterion odds edge (1/4) = 0 := by
    unfold kelly_criterion
    rw [if_pos h]
  have hms : (calculate_stake bankroll odds edge (1/100)).percentage =
      pyRound ((min (1/100) (min (1/20) (max (1/200) (edge * 2)))) * 100) 2 := by
    simp only [calculate_stake, hk]
    rw [if_neg (lt_irrefl (0 : ℚ))]
    simp [minSnd]
  have hconf : (1/200 : ℚ) ≤ min (1/100) (min (1/20) (max (1/200) (edge * 2))) := by
    refine le_min (by norm_num) (le_min (by norm_num) (le_max_left _ _))
  have hx : ((50 : ℤ) : ℚ) ≤
      (min (1/100) (min (1/20) (max (1/200) (edge * 2))) * 100) * 10 ^ 2 := by
    push_cast
    nlinarith [hconf]
  have h12 := le_pyRound 2 hx
  refine ⟨hk, hms, ?_⟩
  rw [hms]
  calc (0 : ℚ) < 1/2 := by norm_num
    _ = ((50 : ℤ) : ℚ) / 10 ^ 2 := by norm_num
    _ ≤ _ := h12

/-- C7, witness: odds exactly 1 with a positive edge — Kelly is 0 and the
reported percentage is positive. -/
theorem stake_degenerate_inputs_witness :
    kelly_criterion 1 (1/20) (1/4) = 0 ∧
    0 < (calculate_stake 1000 1 (1/20) (1/100)).percentage := by
  have h := stake_degenerate_inputs 1000 1 (1/20) (Or.inl (le_refl (1 : ℚ)))
  exact ⟨h.1, h.2.2⟩

/-- C8: the two-way stake split of `calculate_arbitrage` assigns each leg
`(1/total_prob) * implied_prob_i`, and for positive total probability the
two stakes sum to exactly 1. -/
theorem two_way_stakes_sum_to_one (p1 p2 : ℚ) (h : 0 < p1 + p2) :
    (twoWayStakes p1 p2).1 = (1 / (p1 + p2)) * p1 ∧
    (twoWayStakes p1 p2).2 = (1 / (p1 + p2)) * p2 ∧
    (twoWayStakes p1 p2).1 + (twoWayStakes p1 p2).2 = 1 := by
  have hne : p1 + p2 ≠ 0 := ne_of_gt h
  refine ⟨rfl, rfl, ?_⟩
  unfold twoWayStakes
  field_simp

/-- C8, witness: implied probabilities 0.45 and 0.50 — the spec's two-way
example — have stakes summing to exactly 1. -/
theorem two_way_stakes_sum_to_one_witness :
    (twoWayStakes (9/20) (1/2)).1 + (twoWayStakes (9/20) (1/2)).2 = 1 :=
  (two_way_stakes_sum_to_one (9/20) (1/2) (by decide)).2.2

/-- C9: `calculate_ev` returns the empty result (and in particular raises no
error, being a total function) whenever either input list is empty or no
row of the two inputs shares a player. -/
theorem calculate_ev_empty_cases (pp : List PPRow) (mk : List MarketRow)
    (h : pp = [] ∨ mk = [] ∨ ∀ p ∈ pp, ∀ m ∈ mk, p.player ≠ m.player) :
    calculate_ev pp mk = [] := by
  rcases h with h | h | h
  · simp [calculate_ev, h]
  · simp [calculate_ev, h]
  · have hmerge : mergeProps pp mk = [] := by
      unfold mergeProps
      apply List.flatMap_eq_nil_iff.mpr
      intro p hp
      have hfilter : (mk.filter fun m => m.player == p.player) = [] := by
        apply List.filter_eq_nil_iff.mpr
        intro m hm
        simpa using (h p hp m hm).symm
      simp [hfilter]
    unfold calculate_ev
    by_cases hE : (pp.isEmpty || mk.isEmpty) = true
    · rw [if_pos hE]
    · rw [if_neg hE]
      simp [hmerge]

/-- C9, witness: one PrizePicks row and one market row on different players
join to nothing. -/
theorem calculate_ev_empty_cases_witness :
    calculate_ev [⟨"A", 5⟩] [⟨"B", 6, 1/2⟩] = [] :=
  calculate_ev_empty_cases _ _ (Or.inr (Or.inr (by decide)))

/-- C10: when a queried player name is not an exact dictionary key,
`get_team_from_player` still returns a team tag different from "OTHER"
whenever some dictionary name contains the queried name or is contained in
it, and it returns "OTHER" exactly when no such partial match exists. -/
theorem get_team_partial_match (p : String)
    (hexact : player_teams.lookup p = none) :
    ((∃ nt ∈ player_teams, (isSubstring nt.1 p || isSubstring p nt.1) = true) →
      get_team_from_player p ≠ "OTHER") ∧
    ((∀ nt ∈ player_teams, (isSubstring nt.1 p || isSubstring p nt.1) = false) →
      get_team_from_player p = "OTHER") := by
  constructor
  · rintro ⟨nt, hmem, hsat⟩
    unfold get_team_from_player
    rw [hexact]
    cases hfind : player_teams.find? fun nt => isSubstring nt.1 p || isSubstring p nt.1 with
    | none =>
      exact absurd hsat (by simpa using List.find?_eq_none.mp hfind nt hmem)
    | some nt2 =>
      simpa using player_teams_values_ne_other nt2 (List.mem_of_find?_eq_some hfind)
  · intro hall
    unfold get_team_from_player
    rw [hexact, List.find?_eq_none.mpr fun a ha => by simp [hall a ha]]

/-- C10, witness: "LeBron James Jr." is not an exact key but contains the
key "LeBron James", so a team tag (not "OTHER") is returned. -/
theorem get_team_partial_match_witness :
    get_team_from_player "LeBron James Jr." ≠ "OTHER" := by
  have h := get_team_partial_match "LeBron James Jr." (by decide)
  exact h.1 ⟨("LeBron James", "LAL"), by decide, by decide⟩

end PrizePicks
